import Mathlib

/-!
Shallow embedding of `lib/netutil/tls.go` (package `netutil`):
`GetServerTLSConfig` and `collectCipherSuites`.

Modelling choices, each mirroring the Go source:

* `tls.Certificate` is modelled as `Certificate` (abstract parsed cert/key
  bytes).  Go's `tls.LoadX509KeyPair` returns `(Certificate{}, err)` on
  failure, i.e. the zero certificate together with a non-nil error; a disk
  read is therefore modelled as `Except String Certificate`, and the failure
  branch of the callback assigns the zero certificate to the captured
  variable `c` (the Go code uses plain assignment `c, err = ...` on the
  captured variables).
* The callback returns `cert`, which the builder and the callback both set
  to `&c` — the address of the single captured variable `c`.  That address
  never changes, so the pointer type `CertPtr` has a single value `ptrC`,
  and dereferencing a pointer at some point in time yields the current
  content of the cell `c` (`deref`).
* `fasttime.UnixTimestamp()` (second-granularity wall clock, a `uint64`) is
  injected as a `Nat` parameter `now`, one value per callback invocation
  (the two reads inside one invocation come from the same cached second).
  `uint64` overflow is unreachable for Unix timestamps, so plain `Nat`
  arithmetic is used.
* Disk/HTTP contents at each read are oracle parameters (the environment),
  as are the platform's supported cipher-suite catalog (`tls.CipherSuites()`)
  and the PEM pool parser (`x509.CertPool.AppendCertsFromPEM`, which
  reports via a boolean whether at least one certificate was parsed).
* The callback additionally reports whether it invoked
  `tls.LoadX509KeyPair` (`didRead`), modelling a read-counting stub reader.
-/

namespace Netutil

/-- An in-memory certificate/key pair, as parsed by `tls.LoadX509KeyPair`.
The payloads are abstract byte lists; only identity matters here. -/
structure Certificate where
  certData : List Nat
  keyData : List Nat
  deriving DecidableEq, Repr

/-- The zero value `tls.Certificate{}`, produced by `tls.LoadX509KeyPair`
on failure. -/
def zeroCertificate : Certificate := ⟨[], []⟩

/-- The mutable state captured by the `GetCertificate` closure: the single
certificate variable `c` and the reload deadline `certDeadline`. -/
structure CertState where
  c : Certificate
  certDeadline : Nat
  deriving DecidableEq, Repr

/-- The `*tls.Certificate` pointer returned by the callback.  The Go code
always returns `&c`, the address of the one captured variable, so the
pointer type has a single inhabitant. -/
inductive CertPtr where
  | ptrC
  deriving DecidableEq, Repr

/-- Dereference a certificate pointer in a given state: every pointer is
`&c`, so the result is the current content of the cell `c`. -/
def deref (s : CertState) (_ : CertPtr) : Certificate := s.c

/-- Go `%q` formatting of a plain path string. -/
def goQuote (s : String) : String := "\x22" ++ s ++ "\x22"

/-- The error message of the cert/key load failure path
(`cannot load TLS cert from certFile=%q, keyFile=%q: %w`). -/
def loadCertErr (tlsCertFile tlsKeyFile e : String) : String :=
  "cannot load TLS cert from certFile=" ++ goQuote tlsCertFile ++
    ", keyFile=" ++ goQuote tlsKeyFile ++ ": " ++ e

/-- The outcome of one `GetCertificate` callback invocation: the returned
value (`*tls.Certificate` or error), the closure state after the call, and
whether `tls.LoadX509KeyPair` was invoked (read-counting stub). -/
structure CallResult where
  result : Except String CertPtr
  state : CertState
  didRead : Bool
  deriving Repr

/-- The `GetCertificate` callback installed by `GetServerTLSConfig`.
`now` is `fasttime.UnixTimestamp()` at this invocation and `load` is the
outcome of `tls.LoadX509KeyPair(tlsCertFile, tlsKeyFile)` against the disk
contents at this instant.  Mirrors the Go body: if `now > certDeadline`,
re-read; on failure assign the zero certificate to `c` (tuple assignment)
and return the wrapped error; on success set `certDeadline = now + 1`,
set `c` to the new pair and return `&c`; otherwise return the cached `&c`
without touching the disk. -/
def getCertificate (tlsCertFile tlsKeyFile : String) (now : Nat)
    (load : Except String Certificate) (s : CertState) : CallResult :=
  if now > s.certDeadline then
    match load with
    | Except.error e =>
        { result := Except.error (loadCertErr tlsCertFile tlsKeyFile e)
          state := { s with c := zeroCertificate }
          didRead := true }
    | Except.ok c' =>
        { result := Except.ok CertPtr.ptrC
          state := { c := c', certDeadline := now + 1 }
          didRead := true }
  else
    { result := Except.ok CertPtr.ptrC, state := s, didRead := false }

/-- One entry of the platform catalog returned by `tls.CipherSuites()`. -/
structure CipherSuite where
  id : Nat
  name : String
  deriving DecidableEq, Repr

/-- `strings.ToLower` on cipher-suite names.  The names involved are
ASCII, where Go's `strings.ToLower` agrees with per-character ASCII
lowercasing; defined by a plain list map so that concrete instances
evaluate by kernel reduction. -/
def goToLower (s : String) : String := ⟨s.data.map Char.toLower⟩

/-- Go map assignment `m[k] = v`: overwrite the binding for `k` if present,
otherwise add a new one.  Maps built from `[]` by this operation have one
binding per key, exactly like a Go map. -/
def mapInsert : List (String × Nat) → String → Nat → List (String × Nat)
  | [], k, v => [(k, v)]
  | p :: rest, k, v =>
    if p.1 = k then (k, v) :: rest else p :: mapInsert rest k v

/-- Go map lookup `m[k]`. -/
def mapFind : List (String × Nat) → String → Option Nat
  | [], _ => none
  | p :: rest, k => if p.1 = k then some p.2 else mapFind rest k

/-- `supportedCipherSuitesMap`: built by iterating the platform catalog and
assigning `m[strings.ToLower(scf.Name)] = scf.ID`. -/
def buildSuitesMap (supported : List CipherSuite) : List (String × Nat) :=
  supported.foldl (fun m scf => mapInsert m (goToLower scf.name) scf.id) []

/-- The loop of `collectCipherSuites`: look each requested name up in the
lowercased catalog map, failing on the first miss. -/
def collectLoop (m : List (String × Nat)) : List String → Except String (List Nat)
  | [] => Except.ok []
  | gotSuite :: rest =>
    match mapFind m (goToLower gotSuite) with
    | none => Except.error ("got unsupported cipher suite name: " ++ gotSuite)
    | some id =>
      match collectLoop m rest with
      | Except.error e => Except.error e
      | Except.ok ids => Except.ok (id :: ids)

/-- `collectCipherSuites`, parameterised by the platform catalog
`tls.CipherSuites()`. -/
def collectCipherSuites (supported : List CipherSuite)
    (definedCipherSuites : List String) : Except String (List Nat) :=
  collectLoop (buildSuitesMap supported) definedCipherSuites

/-- `tls.ClientAuthType` values used by this code: the zero value
`NoClientCert` and `RequireAndVerifyClientCert`. -/
inductive ClientAuthType where
  | noClientCert
  | requireAndVerifyClientCert
  deriving DecidableEq, Repr

/-- An `x509.CertPool`, abstracted to the list of certificates it holds. -/
abbrev CertPool := List Nat

/-- The fields of the assembled `tls.Config` (the `GetCertificate` closure
is represented separately by its initial `CertState` plus the shared
`getCertificate` function). -/
structure TLSConfig where
  minVersion : Nat
  preferServerCipherSuites : Bool
  cipherSuites : List Nat
  clientAuth : ClientAuthType
  clientCAs : Option CertPool
  deriving DecidableEq, Repr

/-- `tls.VersionTLS12`. -/
def versionTLS12 : Nat := 0x0303

/-- The external collaborators consulted by `GetServerTLSConfig` at build
time: the cert/key load, the platform cipher catalog, the CA bundle read
(`fs.ReadFileOrHTTP`) and the PEM pool parser (`AppendCertsFromPEM`,
`none` when it returns `false`, i.e. no parseable certificate). -/
structure BuildEnvironment where
  loadKeyPair : Except String Certificate
  supported : List CipherSuite
  readFileOrHTTP : Except String String
  appendCertsFromPEM : String → Option CertPool

/-- `GetServerTLSConfig(tlsCAFile, tlsCertFile, tlsKeyFile,
tlsCipherSuites)`: eager cert/key load, cipher-suite resolution, config
assembly, optional mTLS branch.  Returns the config together with the
initial closure state (`cert = &c` holding the eagerly loaded pair,
`certDeadline = 0`). -/
def GetServerTLSConfig (env : BuildEnvironment)
    (tlsCAFile tlsCertFile tlsKeyFile : String)
    (tlsCipherSuites : List String) :
    Except String (TLSConfig × CertState) :=
  match env.loadKeyPair with
  | Except.error e => Except.error (loadCertErr tlsCertFile tlsKeyFile e)
  | Except.ok c =>
    match collectCipherSuites env.supported tlsCipherSuites with
    | Except.error e =>
      Except.error ("cannot use TLS cipher suites from tlsCipherSuites=" ++
        toString tlsCipherSuites ++ ": " ++ e)
    | Except.ok cipherSuites =>
      let s0 : CertState := { c := c, certDeadline := 0 }
      let cfg : TLSConfig :=
        { minVersion := versionTLS12
          preferServerCipherSuites := true
          cipherSuites := cipherSuites
          clientAuth := ClientAuthType.noClientCert
          clientCAs := none }
      if tlsCAFile = "" then
        Except.ok (cfg, s0)
      else
        match env.readFileOrHTTP with
        | Except.error e =>
          Except.error ("cannot read tlsCAFile=" ++ goQuote tlsCAFile ++ ": " ++ e)
        | Except.ok caPEM =>
          match env.appendCertsFromPEM caPEM with
          | none =>
            Except.error ("cannot parse data for tlsCAFile=" ++
              goQuote tlsCAFile ++ ": " ++ caPEM)
          | some cp =>
            Except.ok
              ({ cfg with
                  clientAuth := ClientAuthType.requireAndVerifyClientCert
                  clientCAs := some cp }, s0)

/-- One `GetCertificate` invocation as seen by the closure: the clock value
at the invocation and the disk contents at that instant (as the outcome of
`tls.LoadX509KeyPair`, were it called). -/
structure CallEvent where
  now : Nat
  load : Except String Certificate

/-- Closure state plus a ghost record of the time of the last successful
reload performed by the callback (`none` when the callback has never
successfully reloaded). -/
structure GhostState where
  s : CertState
  lastLoad : Option Nat

/-- One callback invocation on the ghost-extended state: the concrete part
steps by `getCertificate`; the ghost `lastLoad` records `now` exactly when
a reload was attempted and succeeded. -/
def ghostStep (cf kf : String) (g : GhostState) (e : CallEvent) : GhostState :=
  { s := (getCertificate cf kf e.now e.load g.s).state
    lastLoad :=
      if e.now > g.s.certDeadline then
        match e.load with
        | Except.ok _ => some e.now
        | Except.error _ => g.lastLoad
      else g.lastLoad }

/-- A sequence of callback invocations on the ghost-extended state. -/
def ghostExec (cf kf : String) (g : GhostState) (evs : List CallEvent) :
    GhostState :=
  evs.foldl (ghostStep cf kf) g

/-- The closure state produced by a successful `GetServerTLSConfig` call:
`c` holds the eagerly loaded pair and `certDeadline` is zero; no callback
reload has happened yet. -/
def initialGhost (c : Certificate) : GhostState := ⟨⟨c, 0⟩, none⟩

/-- The deadline invariant: the reload deadline is either zero or equal to
the time of the last successful callback reload plus one second. -/
def GhostInv (g : GhostState) : Prop :=
  g.s.certDeadline = 0 ∨
    ∃ t, g.lastLoad = some t ∧ g.s.certDeadline = t + 1

/-- The catalog returned by Go's `tls.CipherSuites()` (the secure suites;
names and identifiers from `crypto/tls`).  Used only to instantiate the
catalog parameter on concrete inputs. -/
def goCipherSuites : List CipherSuite :=
  [⟨0x002f, "TLS_RSA_WITH_AES_128_CBC_SHA"⟩,
   ⟨0x0035, "TLS_RSA_WITH_AES_256_CBC_SHA"⟩,
   ⟨0x009c, "TLS_RSA_WITH_AES_128_GCM_SHA256"⟩,
   ⟨0x009d, "TLS_RSA_WITH_AES_256_GCM_SHA384"⟩,
   ⟨0xc009, "TLS_ECDHE_ECDSA_WITH_AES_128_CBC_SHA"⟩,
   ⟨0xc00a, "TLS_ECDHE_ECDSA_WITH_AES_256_CBC_SHA"⟩,
   ⟨0xc013, "TLS_ECDHE_RSA_WITH_AES_128_CBC_SHA"⟩,
   ⟨0xc014, "TLS_ECDHE_RSA_WITH_AES_256_CBC_SHA"⟩,
   ⟨0xc02b, "TLS_ECDHE_ECDSA_WITH_AES_128_GCM_SHA256"⟩,
   ⟨0xc02c, "TLS_ECDHE_ECDSA_WITH_AES_256_GCM_SHA384"⟩,
   ⟨0xc02f, "TLS_ECDHE_RSA_WITH_AES_128_GCM_SHA256"⟩,
   ⟨0xc030, "TLS_ECDHE_RSA_WITH_AES_256_GCM_SHA384"⟩,
   ⟨0xcca9, "TLS_ECDHE_ECDSA_WITH_CHACHA20_POLY1305_SHA256"⟩,
   ⟨0xcca8, "TLS_ECDHE_RSA_WITH_CHACHA20_POLY1305_SHA256"⟩,
   ⟨0x1301, "TLS_AES_128_GCM_SHA256"⟩,
   ⟨0x1302, "TLS_AES_256_GCM_SHA384"⟩,
   ⟨0x1303, "TLS_CHACHA20_POLY1305_SHA256"⟩]

/-- Per-name resolution through the lowercased catalog map (the value the
loop of `collectCipherSuites` extracts for a recognized name). -/
def resolveName (supported : List CipherSuite) (g : String) : Nat :=
  (mapFind (buildSuitesMap supported) (goToLower g)).getD 0

/-- A concrete certificate pair used on concrete inputs. -/
def certA : Certificate := ⟨[1], [1]⟩

/-- A second, distinct concrete certificate pair. -/
def certB : Certificate := ⟨[2], [2]⟩

/-! Helper lemmas about the map operations and the resolver loop. -/

theorem mapFind_mapInsert (m : List (String × Nat)) (k k' : String) (v : Nat) :
    mapFind (mapInsert m k v) k' = if k = k' then some v else mapFind m k' := by
  induction m with
  | nil => simp [mapInsert, mapFind]
  | cons p rest ih =>
    by_cases hp : p.1 = k
    · simp only [mapInsert, hp, if_pos rfl, mapFind]
      by_cases hk : k = k'
      · simp [hk]
      · have hp' : ¬ p.1 = k' := fun h => hk (by rw [← hp]; exact h)
        simp [hk, mapFind, hp']
    · simp only [mapInsert, hp, if_neg hp, mapFind, ih]
      by_cases hp' : p.1 = k'
      · have hkk : ¬ k = k' := fun h => hp (by rw [hp', ← h])
        simp [hp', hkk]
      · simp [hp']

theorem mapFind_foldl_isSome (l : List CipherSuite) (m : List (String × Nat))
    (k : String) :
    (mapFind (l.foldl (fun acc scf => mapInsert acc (goToLower scf.name) scf.id) m) k).isSome
      ↔ (mapFind m k).isSome ∨ ∃ cs ∈ l, goToLower cs.name = k := by
  induction l generalizing m with
  | nil => simp
  | cons cs rest ih =>
    simp only [List.foldl_cons, ih, mapFind_mapInsert, List.mem_cons]
    by_cases h : goToLower cs.name = k
    · simp [h]
    · constructor
      · rintro (hm | hex)
        · rw [if_neg h] at hm
          exact Or.inl hm
        · obtain ⟨x, hx, hxk⟩ := hex
          exact Or.inr ⟨x, Or.inr hx, hxk⟩
      · rintro (hm | ⟨x, hx | hx, hxk⟩)
        · exact Or.inl (by rw [if_neg h]; exact hm)
        · exact absurd (hx ▸ hxk) h
        · exact Or.inr ⟨x, hx, hxk⟩

theorem mapFind_buildSuitesMap_isSome (supported : List CipherSuite) (k : String) :
    (mapFind (buildSuitesMap supported) k).isSome
      ↔ ∃ cs ∈ supported, goToLower cs.name = k := by
  simpa [mapFind] using mapFind_foldl_isSome supported [] k

theorem collectLoop_ok (m : List (String × Nat)) (defined : List String)
    (h : ∀ g ∈ defined, (mapFind m (goToLower g)).isSome) :
    collectLoop m defined
      = Except.ok (defined.map (fun g => (mapFind m (goToLower g)).getD 0)) := by
  induction defined with
  | nil => rfl
  | cons g rest ih =>
    obtain ⟨id, hid⟩ := Option.isSome_iff_exists.mp (h g (by simp))
    have hrest := ih (fun x hx => h x (by simp [hx]))
    simp [collectLoop, hid, hrest]

theorem ghostStep_inv (cf kf : String) (g : GhostState) (e : CallEvent)
    (h : GhostInv g) : GhostInv (ghostStep cf kf g e) := by
  by_cases h1 : e.now > g.s.certDeadline
  · cases hl : e.load with
    | ok c' =>
      right
      refine ⟨e.now, ?_, ?_⟩
      · simp [ghostStep, h1, hl]
      · simp [ghostStep, getCertificate, h1, hl]
    | error er =>
      unfold GhostInv ghostStep getCertificate at *
      simpa [h1, hl] using h
  · unfold GhostInv ghostStep getCertificate at *
    simpa [h1] using h

theorem ghostExec_inv (cf kf : String) (evs : List CallEvent) (g : GhostState)
    (h : GhostInv g) : GhostInv (ghostExec cf kf g evs) := by
  induction evs generalizing g with
  | nil => exact h
  | cons e rest ih =>
    simp only [ghostExec, List.foldl_cons]
    exact ih (ghostStep cf kf g e) (ghostStep_inv cf kf g e h)

theorem GetServerTLSConfig_ok_inv (env : BuildEnvironment)
    (tlsCAFile cf kf : String) (suites : List String)
    (cfg : TLSConfig) (s0 : CertState)
    (h : GetServerTLSConfig env tlsCAFile cf kf suites = Except.ok (cfg, s0)) :
    env.loadKeyPair = Except.ok s0.c
    ∧ s0.certDeadline = 0
    ∧ collectCipherSuites env.supported suites = Except.ok cfg.cipherSuites
    ∧ cfg.minVersion = versionTLS12
    ∧ cfg.preferServerCipherSuites = true
    ∧ (tlsCAFile = "" →
        cfg.clientAuth = ClientAuthType.noClientCert ∧ cfg.clientCAs = none)
    ∧ (tlsCAFile ≠ "" →
        ∃ pem pool, env.readFileOrHTTP = Except.ok pem
          ∧ env.appendCertsFromPEM pem = some pool
          ∧ cfg.clientAuth = ClientAuthType.requireAndVerifyClientCert
          ∧ cfg.clientCAs = some pool) := by
  cases hl : env.loadKeyPair with
  | error e => simp [GetServerTLSConfig, hl] at h
  | ok c =>
    cases hc : collectCipherSuites env.supported suites with
    | error e => simp [GetServerTLSConfig, hl, hc] at h
    | ok ids =>
      by_cases hca : tlsCAFile = ""
      · simp [GetServerTLSConfig, hl, hc, hca] at h
        obtain ⟨hcfg, hs0⟩ := h
        subst hcfg hs0
        exact ⟨rfl, rfl, rfl, rfl, rfl, fun _ => ⟨rfl, rfl⟩,
          fun hcontra => absurd hca hcontra⟩
      · cases hr : env.readFileOrHTTP with
        | error e => simp [GetServerTLSConfig, hl, hc, hca, hr] at h
        | ok pem =>
          cases hp : env.appendCertsFromPEM pem with
          | none => simp [GetServerTLSConfig, hl, hc, hca, hr, hp] at h
          | some pool =>
            simp [GetServerTLSConfig, hl, hc, hca, hr, hp] at h
            obtain ⟨hcfg, hs0⟩ := h
            subst hcfg hs0
            exact ⟨rfl, rfl, rfl, rfl, rfl,
              fun hcontra => absurd hcontra hca,
              fun _ => ⟨pem, pool, rfl, hp, rfl, rfl⟩⟩

/-!
Claim theorems.
-/

/-- C1 (counterexample): the claim that a failed reload past the deadline
leaves the previously cached valid certificate unchanged is false.
Starting from cached `certA` with deadline 5, the invocation at time 6
whose disk read fails returns an error — but the cached certificate is not
left unchanged: the tuple assignment `c, err = tls.LoadX509KeyPair(...)`
overwrites the cached cell with the zero certificate (the deadline, by
contrast, is indeed unchanged). -/
theorem C1_counterexample :
    (getCertificate "cert.pem" "key.pem" 6 (Except.error "boom")
        ⟨certA, 5⟩).state.c ≠ certA
    ∧ (getCertificate "cert.pem" "key.pem" 6 (Except.error "boom")
        ⟨certA, 5⟩).state.certDeadline = 5
    ∧ (getCertificate "cert.pem" "key.pem" 6 (Except.error "boom")
        ⟨certA, 5⟩).result
      = Except.error (loadCertErr "cert.pem" "key.pem" "boom") :=
  ⟨by decide, rfl, rfl⟩

/-- C1 (amended): if a callback invocation finds the deadline passed and
the re-read fails, it returns an error for that invocation only, leaves
the reload deadline unchanged and overwrites the cached certificate
variable with the zero certificate; since the deadline therefore remains
passed, a subsequent invocation after the files are fixed re-reads,
succeeds, and returns the corrected certificate (the zero certificate is
never returned). -/
theorem C1_reload_failure_isolation (cf kf : String) (s : CertState)
    (now now' : Nat) (e : String) (c' : Certificate)
    (h₁ : now > s.certDeadline) (h₂ : now' > s.certDeadline) :
    (getCertificate cf kf now (Except.error e) s).result
        = Except.error (loadCertErr cf kf e)
    ∧ (getCertificate cf kf now (Except.error e) s).state.certDeadline
        = s.certDeadline
    ∧ (getCertificate cf kf now (Except.error e) s).state.c = zeroCertificate
    ∧ (getCertificate cf kf now' (Except.ok c')
          (getCertificate cf kf now (Except.error e) s).state).result
        = Except.ok CertPtr.ptrC
    ∧ deref (getCertificate cf kf now' (Except.ok c')
          (getCertificate cf kf now (Except.error e) s).state).state CertPtr.ptrC
        = c' := by
  have hs1 : (getCertificate cf kf now (Except.error e) s).state
      = { s with c := zeroCertificate } := by
    simp [getCertificate, h₁]
  refine ⟨by simp [getCertificate, h₁], by rw [hs1], by rw [hs1], ?_, ?_⟩
  · rw [hs1]
    simp [getCertificate, h₂]
  · rw [hs1]
    simp [getCertificate, h₂, deref]

/-- C1 witness: the amended statement at cached pair `certA`, deadline 5,
a failing read at time 6 and a successful read of `certB` at time 7. -/
theorem C1_reload_failure_isolation_witness :
    (getCertificate "cert.pem" "key.pem" 6 (Except.error "boom")
        ⟨certA, 5⟩).result
        = Except.error (loadCertErr "cert.pem" "key.pem" "boom")
    ∧ (getCertificate "cert.pem" "key.pem" 6 (Except.error "boom")
        ⟨certA, 5⟩).state.certDeadline = (⟨certA, 5⟩ : CertState).certDeadline
    ∧ (getCertificate "cert.pem" "key.pem" 6 (Except.error "boom")
        ⟨certA, 5⟩).state.c = zeroCertificate
    ∧ (getCertificate "cert.pem" "key.pem" 7 (Except.ok certB)
          (getCertificate "cert.pem" "key.pem" 6 (Except.error "boom")
            ⟨certA, 5⟩).state).result
        = Except.ok CertPtr.ptrC
    ∧ deref (getCertificate "cert.pem" "key.pem" 7 (Except.ok certB)
          (getCertificate "cert.pem" "key.pem" 6 (Except.error "boom")
            ⟨certA, 5⟩).state).state CertPtr.ptrC
        = certB :=
  C1_reload_failure_isolation "cert.pem" "key.pem" ⟨certA, 5⟩ 6 7 "boom" certB
    (by decide) (by decide)

/-- C2 (counterexample): the claim that a certificate obtained from an
earlier callback invocation is never modified by a later reload is false.
The invocation at time 10 returns the reference `&c`; the invocation at
time 12 reloads and assigns the captured variable `c` in place, so the
earlier reference now observes a different certificate. -/
theorem C2_counterexample :
    (getCertificate "cert.pem" "key.pem" 10 (Except.ok certA)
        ⟨certA, 0⟩).result = Except.ok CertPtr.ptrC
    ∧ (getCertificate "cert.pem" "key.pem" 12 (Except.ok certB)
        (getCertificate "cert.pem" "key.pem" 10 (Except.ok certA)
          ⟨certA, 0⟩).state).didRead = true
    ∧ deref (getCertificate "cert.pem" "key.pem" 10 (Except.ok certA)
          ⟨certA, 0⟩).state CertPtr.ptrC
      ≠ deref (getCertificate "cert.pem" "key.pem" 12 (Except.ok certB)
          (getCertificate "cert.pem" "key.pem" 10 (Except.ok certA)
            ⟨certA, 0⟩).state).state CertPtr.ptrC :=
  ⟨rfl, rfl, by decide⟩

/-- C2 (amended): the callback always returns the same reference `&c` to
the one captured certificate variable; every reload performed by a later
invocation overwrites that variable in place (with the new pair on
success, with the zero certificate on failure), so a reference obtained
from an earlier invocation observes the overwritten value — the pair is
mutated in place, not replaced wholesale. -/
theorem C2_single_cell_mutation (cf kf : String) (now : Nat)
    (load : Except String Certificate) (s : CertState) :
    (∀ p, (getCertificate cf kf now load s).result = Except.ok p →
      p = CertPtr.ptrC)
    ∧ (∀ c', now > s.certDeadline → load = Except.ok c' →
        deref (getCertificate cf kf now load s).state CertPtr.ptrC = c')
    ∧ (∀ e, now > s.certDeadline → load = Except.error e →
        deref (getCertificate cf kf now load s).state CertPtr.ptrC
          = zeroCertificate) := by
  refine ⟨fun p _ => by cases p; rfl, fun c' h1 h2 => ?_, fun e h1 h2 => ?_⟩
  · subst h2
    simp [getCertificate, h1, deref]
  · subst h2
    simp [getCertificate, h1, deref]

/-- C2 witness: the amended statement at a reload of `certA` over cached
`certB` at time 10 with deadline 5. -/
theorem C2_single_cell_mutation_witness :
    deref (getCertificate "cert.pem" "key.pem" 10 (Except.ok certA)
        ⟨certB, 5⟩).state CertPtr.ptrC = certA :=
  (C2_single_cell_mutation "cert.pem" "key.pem" 10 (Except.ok certA)
    ⟨certB, 5⟩).2.1 certA (by decide) rfl

/-- C3: if a callback invocation at time `now` returns a certificate
reference, a second invocation at the same second returns the identical
reference, leaves the state unchanged, and performs no disk read at all
(the disk contents `load₂` at the second call are irrelevant). -/
theorem C3_idempotent_within_second (cf kf : String) (now : Nat)
    (load₁ load₂ : Except String Certificate) (s : CertState) (p₁ : CertPtr)
    (h : (getCertificate cf kf now load₁ s).result = Except.ok p₁) :
    (getCertificate cf kf now load₂
        (getCertificate cf kf now load₁ s).state).result = Except.ok p₁
    ∧ (getCertificate cf kf now load₂
        (getCertificate cf kf now load₁ s).state).state
      = (getCertificate cf kf now load₁ s).state
    ∧ (getCertificate cf kf now load₂
        (getCertificate cf kf now load₁ s).state).didRead = false := by
  cases p₁
  by_cases h1 : now > s.certDeadline
  · cases load₁ with
    | error e => simp [getCertificate, h1] at h
    | ok c' =>
      have hs : (getCertificate cf kf now (Except.ok c') s).state
          = { c := c', certDeadline := now + 1 } := by
        simp [getCertificate, h1]
      have h2 : ¬ now > now + 1 := by omega
      rw [hs]
      simp [getCertificate, h2]
  · have hs : (getCertificate cf kf now load₁ s).state = s := by
      simp [getCertificate, h1]
    rw [hs]
    simp [getCertificate, h1]

/-- C3 witness: a successful reload at time 10, then a second call at
time 10 whose would-be disk read errors — the second call succeeds
without reading, returning the same reference and state. -/
theorem C3_idempotent_within_second_witness :
    (getCertificate "cert.pem" "key.pem" 10 (Except.error "boom")
        (getCertificate "cert.pem" "key.pem" 10 (Except.ok certA)
          ⟨certB, 5⟩).state).result = Except.ok CertPtr.ptrC
    ∧ (getCertificate "cert.pem" "key.pem" 10 (Except.error "boom")
        (getCertificate "cert.pem" "key.pem" 10 (Except.ok certA)
          ⟨certB, 5⟩).state).state
      = (getCertificate "cert.pem" "key.pem" 10 (Except.ok certA)
          ⟨certB, 5⟩).state
    ∧ (getCertificate "cert.pem" "key.pem" 10 (Except.error "boom")
        (getCertificate "cert.pem" "key.pem" 10 (Except.ok certA)
          ⟨certB, 5⟩).state).didRead = false :=
  C3_idempotent_within_second "cert.pem" "key.pem" 10 (Except.ok certA)
    (Except.error "boom") ⟨certB, 5⟩ CertPtr.ptrC rfl

/-- C8: if the current time has passed the cached deadline, the callback
re-reads the files (`didRead`), and when the on-disk pair has been
replaced by `c'` it returns a reference whose content is the updated
certificate `c'`. -/
theorem C8_reload_after_deadline (cf kf : String) (now : Nat) (s : CertState)
    (c' : Certificate) (h : now > s.certDeadline) :
    (getCertificate cf kf now (Except.ok c') s).didRead = true
    ∧ (getCertificate cf kf now (Except.ok c') s).result
        = Except.ok CertPtr.ptrC
    ∧ deref (getCertificate cf kf now (Except.ok c') s).state CertPtr.ptrC
        = c' := by
  refine ⟨?_, ?_, ?_⟩ <;> simp [getCertificate, h, deref]

/-- C8 witness: cached `certA` with deadline 6, clock at 7, on-disk pair
replaced by `certB`: the callback re-reads and returns `certB`. -/
theorem C8_reload_after_deadline_witness :
    (getCertificate "cert.pem" "key.pem" 7 (Except.ok certB)
        ⟨certA, 6⟩).didRead = true
    ∧ (getCertificate "cert.pem" "key.pem" 7 (Except.ok certB)
        ⟨certA, 6⟩).result = Except.ok CertPtr.ptrC
    ∧ deref (getCertificate "cert.pem" "key.pem" 7 (Except.ok certB)
        ⟨certA, 6⟩).state CertPtr.ptrC = certB :=
  C8_reload_after_deadline "cert.pem" "key.pem" 7 ⟨certA, 6⟩ certB (by decide)

/-- C4: over the cache's lifetime (the freshly built state followed by any
sequence of callback invocations), the reload deadline is either zero or
equal to the time of the last successful callback reload plus one second;
and a successful reload inside the callback sets the deadline to
current-time + 1. -/
theorem C4_deadline_invariant :
    (∀ c, GhostInv (initialGhost c))
    ∧ (∀ cf kf (g : GhostState) (evs : List CallEvent),
        GhostInv g → GhostInv (ghostExec cf kf g evs))
    ∧ (∀ cf kf (now : Nat) (c' : Certificate) (s : CertState),
        now > s.certDeadline →
        (getCertificate cf kf now (Except.ok c') s).state.certDeadline
          = now + 1) :=
  ⟨fun _ => Or.inl rfl,
   fun cf kf g evs h => ghostExec_inv cf kf evs g h,
   fun cf kf now c' s h => by simp [getCertificate, h]⟩

/-- C4 witness: the invariant holds after a successful reload at time 5
followed by a failed reload attempt at time 9, starting from the freshly
built state; and the reload at time 5 set the deadline to 5 + 1. -/
theorem C4_deadline_invariant_witness :
    GhostInv (ghostExec "cert.pem" "key.pem" (initialGhost certA)
        [⟨5, Except.ok certB⟩, ⟨9, Except.error "boom"⟩])
    ∧ (getCertificate "cert.pem" "key.pem" 5 (Except.ok certB)
        ⟨certA, 0⟩).state.certDeadline = 5 + 1 :=
  ⟨C4_deadline_invariant.2.1 "cert.pem" "key.pem" (initialGhost certA)
      [⟨5, Except.ok certB⟩, ⟨9, Except.error "boom"⟩]
      (C4_deadline_invariant.1 certA),
   C4_deadline_invariant.2.2 "cert.pem" "key.pem" 5 certB ⟨certA, 0⟩
      (by decide)⟩

/-- C5: when every requested cipher-suite name has a case-insensitive
match in the platform catalog, resolution succeeds and returns the
identifiers in exactly the input order (the output is the input list
mapped elementwise through per-name resolution, so duplicates are
preserved as given); and the empty input list resolves to the empty
identifier list, signaling platform defaults. -/
theorem C5_resolver_preserves_order (supported : List CipherSuite)
    (defined : List String)
    (h : ∀ g ∈ defined, ∃ cs ∈ supported, goToLower cs.name = goToLower g) :
    collectCipherSuites supported defined
      = Except.ok (defined.map (resolveName supported))
    ∧ collectCipherSuites supported [] = Except.ok [] := by
  constructor
  · have h' : ∀ g ∈ defined, (mapFind (buildSuitesMap supported) (goToLower g)).isSome :=
      fun g hg => (mapFind_buildSuitesMap_isSome supported (goToLower g)).mpr (h g hg)
    exact collectLoop_ok (buildSuitesMap supported) defined h'
  · rfl

/-- C5 witness: against the Go catalog, a three-name list (mixed case,
with a duplicate) resolves to the identifiers in input order, and the
empty list resolves to the empty list. -/
theorem C5_resolver_preserves_order_witness :
    collectCipherSuites goCipherSuites
        ["TLS_AES_128_GCM_SHA256", "tls_ecdhe_rsa_with_aes_256_gcm_sha384",
          "TLS_AES_128_GCM_SHA256"]
      = Except.ok [0x1301, 0xc030, 0x1301]
    ∧ collectCipherSuites goCipherSuites [] = Except.ok [] := by
  have h := C5_resolver_preserves_order goCipherSuites
    ["TLS_AES_128_GCM_SHA256", "tls_ecdhe_rsa_with_aes_256_gcm_sha384",
      "TLS_AES_128_GCM_SHA256"] (by decide)
  exact ⟨h.1.trans (by rfl), h.2⟩

/-- C6: when the requested list contains a name with no case-insensitive
match in the platform catalog, resolution fails with an error naming the
first such entry, and returns no identifiers. -/
theorem C6_first_unrecognized_fails (supported : List CipherSuite)
    (defined : List String) (bad : String)
    (h : defined.find?
        (fun g => !(supported.any (fun cs => goToLower cs.name = goToLower g)))
      = some bad) :
    collectCipherSuites supported defined
      = Except.error ("got unsupported cipher suite name: " ++ bad) := by
  induction defined with
  | nil => simp at h
  | cons g rest ih =>
    cases hany : supported.any (fun cs => goToLower cs.name = goToLower g) with
    | true =>
      simp only [List.find?_cons, hany, Bool.not_true] at h
      have hsome : (mapFind (buildSuitesMap supported) (goToLower g)).isSome := by
        rw [mapFind_buildSuitesMap_isSome]
        obtain ⟨cs, hcs, heq⟩ := List.any_eq_true.mp hany
        exact ⟨cs, hcs, of_decide_eq_true heq⟩
      obtain ⟨id, hid⟩ := Option.isSome_iff_exists.mp hsome
      have hrest := ih h
      simp only [collectCipherSuites] at hrest ⊢
      simp [collectLoop, hid, hrest]
    | false =>
      simp only [List.find?_cons, hany, Bool.not_false, Option.some.injEq] at h
      subst h
      have hnone : mapFind (buildSuitesMap supported) (goToLower g) = none := by
        rw [← Option.not_isSome_iff_eq_none, mapFind_buildSuitesMap_isSome]
        rintro ⟨cs, hcs, heq⟩
        have hc : supported.any (fun cs => goToLower cs.name = goToLower g)
            = true :=
          List.any_eq_true.mpr ⟨cs, hcs, decide_eq_true heq⟩
        rw [hany] at hc
        exact Bool.false_ne_true hc
      simp [collectCipherSuites, collectLoop, hnone]

/-- C6 witness: the concrete scenario from the spec — a list whose second
entry is unrecognized fails naming exactly that entry. -/
theorem C6_first_unrecognized_fails_witness :
    collectCipherSuites goCipherSuites
        ["TLS_AES_128_GCM_SHA256", "bogus_suite", "also_bogus"]
      = Except.error ("got unsupported cipher suite name: " ++ "bogus_suite") :=
  C6_first_unrecognized_fails goCipherSuites
    ["TLS_AES_128_GCM_SHA256", "bogus_suite", "also_bogus"] "bogus_suite"
    (by decide)

/-- A concrete build environment whose reads all succeed: the cert/key
pair parses to `certA`, the catalog is the Go one, the CA bundle reads as
`"CAPEM"` and parses into the pool `[7]`. -/
def envDemo : BuildEnvironment :=
  { loadKeyPair := Except.ok certA
    supported := goCipherSuites
    readFileOrHTTP := Except.ok "CAPEM"
    appendCertsFromPEM := fun pem => if pem = "CAPEM" then some [7] else none }

/-- A concrete build environment whose eager cert/key load fails. -/
def envFail : BuildEnvironment :=
  { loadKeyPair := Except.error "no such file"
    supported := goCipherSuites
    readFileOrHTTP := Except.error "unreachable"
    appendCertsFromPEM := fun _ => none }

/-- C7: given a successful eager load and cipher resolution, the client
authentication policy is determined solely by the CA file path: an empty
path yields a configuration with verification disabled (`NoClientCert`)
and no CA pool; a non-empty path yields `RequireAndVerifyClientCert` with
the pool parsed from the PEM bundle, and the builder fails with a
descriptive error when the CA source cannot be read or yields no
parseable certificate. -/
theorem C7_client_auth_policy (env : BuildEnvironment)
    (tlsCAFile cf kf : String) (suites : List String)
    (c0 : Certificate) (ids : List Nat)
    (hload : env.loadKeyPair = Except.ok c0)
    (hciph : collectCipherSuites env.supported suites = Except.ok ids) :
    (tlsCAFile = "" →
      ∃ cfg s0, GetServerTLSConfig env tlsCAFile cf kf suites
          = Except.ok (cfg, s0)
        ∧ cfg.clientAuth = ClientAuthType.noClientCert
        ∧ cfg.clientCAs = none)
    ∧ (∀ pem pool, tlsCAFile ≠ "" → env.readFileOrHTTP = Except.ok pem →
        env.appendCertsFromPEM pem = some pool →
        ∃ cfg s0, GetServerTLSConfig env tlsCAFile cf kf suites
            = Except.ok (cfg, s0)
          ∧ cfg.clientAuth = ClientAuthType.requireAndVerifyClientCert
          ∧ cfg.clientCAs = some pool)
    ∧ (∀ e, tlsCAFile ≠ "" → env.readFileOrHTTP = Except.error e →
        GetServerTLSConfig env tlsCAFile cf kf suites
          = Except.error ("cannot read tlsCAFile=" ++ goQuote tlsCAFile
              ++ ": " ++ e))
    ∧ (∀ pem, tlsCAFile ≠ "" → env.readFileOrHTTP = Except.ok pem →
        env.appendCertsFromPEM pem = none →
        GetServerTLSConfig env tlsCAFile cf kf suites
          = Except.error ("cannot parse data for tlsCAFile="
              ++ goQuote tlsCAFile ++ ": " ++ pem)) := by
  refine ⟨fun hca => ?_, fun pem pool hca hr hp => ?_,
    fun e hca hr => ?_, fun pem hca hr hp => ?_⟩
  · refine ⟨{ minVersion := versionTLS12,
              preferServerCipherSuites := true,
              cipherSuites := ids,
              clientAuth := ClientAuthType.noClientCert,
              clientCAs := none }, ⟨c0, 0⟩, ?_, rfl, rfl⟩
    simp [GetServerTLSConfig, hload, hciph, hca]
  · refine ⟨{ minVersion := versionTLS12,
              preferServerCipherSuites := true,
              cipherSuites := ids,
              clientAuth := ClientAuthType.requireAndVerifyClientCert,
              clientCAs := some pool }, ⟨c0, 0⟩, ?_, rfl, rfl⟩
    simp [GetServerTLSConfig, hload, hciph, hca, hr, hp]
  · simp [GetServerTLSConfig, hload, hciph, hca, hr]
  · simp [GetServerTLSConfig, hload, hciph, hca, hr, hp]

/-- C7 witness: with all reads succeeding and a non-empty CA path, the
builder returns a configuration requiring and verifying client
certificates with the parsed pool. -/
theorem C7_client_auth_policy_witness :
    ∃ cfg s0, GetServerTLSConfig envDemo "ca.pem" "cert.pem" "key.pem"
        ["TLS_AES_128_GCM_SHA256"] = Except.ok (cfg, s0)
      ∧ cfg.clientAuth = ClientAuthType.requireAndVerifyClientCert
      ∧ cfg.clientCAs = some [7] :=
  (C7_client_auth_policy envDemo "ca.pem" "cert.pem" "key.pem"
      ["TLS_AES_128_GCM_SHA256"] certA [0x1301] rfl (by rfl)).2.1
    "CAPEM" [7] (by decide) rfl (by rfl)

/-- C9: the builder eagerly loads the cert/key pair and propagates the
first error: a failed eager load yields the error naming both file paths
and no configuration; a failed cipher-suite resolution yields the error
annotated with the requested list and no configuration; and any returned
configuration implies every step succeeded (eager load cached, cipher
list resolved, and the CA branch either skipped or fully successful) —
never a partial configuration. -/
theorem C9_error_propagation (env : BuildEnvironment)
    (tlsCAFile cf kf : String) (suites : List String) :
    (∀ e, env.loadKeyPair = Except.error e →
      GetServerTLSConfig env tlsCAFile cf kf suites
        = Except.error (loadCertErr cf kf e))
    ∧ (∀ c0 e, env.loadKeyPair = Except.ok c0 →
        collectCipherSuites env.supported suites = Except.error e →
        GetServerTLSConfig env tlsCAFile cf kf suites
          = Except.error ("cannot use TLS cipher suites from tlsCipherSuites="
              ++ toString suites ++ ": " ++ e))
    ∧ (∀ cfg s0,
        GetServerTLSConfig env tlsCAFile cf kf suites = Except.ok (cfg, s0) →
        env.loadKeyPair = Except.ok s0.c
        ∧ collectCipherSuites env.supported suites = Except.ok cfg.cipherSuites
        ∧ (tlsCAFile = "" ∨ ∃ pem pool, env.readFileOrHTTP = Except.ok pem
            ∧ env.appendCertsFromPEM pem = some pool)) := by
  refine ⟨fun e he => by simp [GetServerTLSConfig, he],
    fun c0 e hc he => by simp [GetServerTLSConfig, hc, he],
    fun cfg s0 h => ?_⟩
  obtain ⟨h1, _, h3, _, _, _, h7⟩ :=
    GetServerTLSConfig_ok_inv env tlsCAFile cf kf suites cfg s0 h
  by_cases hca : tlsCAFile = ""
  · exact ⟨h1, h3, Or.inl hca⟩
  · obtain ⟨pem, pool, hr, hp, _, _⟩ := h7 hca
    exact ⟨h1, h3, Or.inr ⟨pem, pool, hr, hp⟩⟩

/-- C9 witness: a failing eager load produces exactly the error naming
both paths. -/
theorem C9_error_propagation_witness :
    GetServerTLSConfig envFail "" "cert.pem" "key.pem" []
      = Except.error (loadCertErr "cert.pem" "key.pem" "no such file") :=
  (C9_error_propagation envFail "" "cert.pem" "key.pem" []).1
    "no such file" rfl

/-- C10: any configuration the builder returns starts with the reload
deadline at zero, so the first callback invocation (at any positive
timestamp, even within the same second as construction) re-reads the
files; its outcome is determined entirely by the disk contents at that
moment, not by the eagerly loaded pair: a failing read fails that
handshake despite the successful eager load, and a successful read
returns the freshly read pair. -/
theorem C10_first_invocation_always_reloads (env : BuildEnvironment)
    (tlsCAFile cf kf : String) (suites : List String)
    (cfg : TLSConfig) (s0 : CertState)
    (hbuild : GetServerTLSConfig env tlsCAFile cf kf suites
      = Except.ok (cfg, s0)) :
    s0.certDeadline = 0
    ∧ ∀ now, 0 < now → ∀ load : Except String Certificate,
        (getCertificate cf kf now load s0).didRead = true
        ∧ (∀ e, load = Except.error e →
            (getCertificate cf kf now load s0).result
              = Except.error (loadCertErr cf kf e))
        ∧ (∀ c', load = Except.ok c' →
            (getCertificate cf kf now load s0).result = Except.ok CertPtr.ptrC
            ∧ deref (getCertificate cf kf now load s0).state CertPtr.ptrC
                = c') := by
  obtain ⟨_, hd, _⟩ :=
    GetServerTLSConfig_ok_inv env tlsCAFile cf kf suites cfg s0 hbuild
  refine ⟨hd, fun now hnow load => ?_⟩
  have h1 : now > s0.certDeadline := by omega
  refine ⟨?_, fun e he => ?_, fun c' hc => ?_⟩
  · cases load <;> simp [getCertificate, h1]
  · subst he
    simp [getCertificate, h1]
  · subst hc
    exact ⟨by simp [getCertificate, h1], by simp [getCertificate, h1, deref]⟩

/-- C10 witness: after a successful build (eager pair `certA`), the first
invocation one hundred seconds later re-reads and returns the on-disk
pair `certB`, not the eagerly loaded one. -/
theorem C10_first_invocation_always_reloads_witness :
    (getCertificate "cert.pem" "key.pem" 100 (Except.ok certB)
        ⟨certA, 0⟩).result = Except.ok CertPtr.ptrC
    ∧ deref (getCertificate "cert.pem" "key.pem" 100 (Except.ok certB)
        ⟨certA, 0⟩).state CertPtr.ptrC = certB :=
  ((C10_first_invocation_always_reloads envDemo "" "cert.pem" "key.pem" []
      { minVersion := versionTLS12, preferServerCipherSuites := true,
        cipherSuites := [], clientAuth := ClientAuthType.noClientCert,
        clientCAs := none }
      ⟨certA, 0⟩ rfl).2 100 (by decide) (Except.ok certB)).2.2 certB rfl

end Netutil
